import Mathlib

/-!
Verification of the game-selection and live-start synchronization core of
`mlbam/mlbv.py` (function `main`, lines 115-183), shallowly embedded in Lean.

The repository sources contain only `mlbam/mlbv.py`.  The collaborator
modules (`mlbam.gamedata`, `mlbam.stream`, `mlbam.util`, `mlbam.standings`,
`mlbam.config`) are external: their operations are abstract functions
supplied by an `Env` record, and `util.has_reached_time` is modelled from the
spec.  Times are naturals (seconds); `time.sleep(10)` advances simulated time
by 10; an external cancellation signal (Ctrl-C / `KeyboardInterrupt` raised
during a sleep) is modelled by a predicate on the loop iteration index.
A run of `main` is modelled as the ordered trace of its externally observable
calls plus its result.  The configuration side effects of lines 94-133 and
the today-relative date defaulting of lines 135-140 have no bearing on the
claims and are outside the model: `Args.date` is the already-resolved date.
-/

namespace Mlbv

/-- Python truthiness of an optional string argument (`if args.team:` etc.):
absent (`None`) and the empty string are falsy. -/
def truthy : Option String → Bool
  | none => false
  | some s => !(s == "")

/-- Python `str.lower()` as used on team and feed codes (`args.team.lower()`). -/
def strLower (s : String) : String := ⟨s.data.map Char.toLower⟩

/-- Model of a game record as consumed by `main`: the only field the
orchestration reads is `game_rec['mlbdate']`, the scheduled start time. -/
structure GameRec where
  /-- Scheduled start time, absolute, in seconds. -/
  mlbdate : Nat
  deriving DecidableEq

/-- Result of a run of `main`: a process exit code (the value `main` returns),
or termination by an external cancellation signal (a `KeyboardInterrupt`
raised inside the wait loop propagates out of `main`). -/
inductive MainResult where
  | exit (code : Int)
  | cancelled
  deriving DecidableEq

/-- Externally observable events of a run of `main`, in program order. -/
inductive Event where
  /-- Call `LOG.warn('Unexpected team code: ...')`, line 119. -/
  | warn (team : String)
  /-- Call `standings.get_standings(args.standings, args.date)`, line 143. -/
  | standingsCall (category date : String)
  /-- Call `mlb_gamedata.retrieve_and_display_game_data(date, days, display)`,
  lines 147 and 174. -/
  | retrieveCall (date : String) (days : Nat) (display : Bool)
  /-- Call `stream.get_game_rec(game_data, team_to_play, args.game)`,
  lines 160 and 181. -/
  | selectCall (gameData : Nat) (team game : String)
  /-- Log `Waiting for game to start ...` and the Ctrl-C prompt, lines 163-164. -/
  | logWaiting
  /-- Call `time.sleep(10)`, line 167. -/
  | sleep (secs : Nat)
  /-- Progress dot printed by line 170. -/
  | dot
  /-- Log `Game time. Refreshing game data after wait...`, line 173. -/
  | logRefreshing
  /-- Log at error severity `Unexpected error: no game data found after refresh
  on wait`, line 178. -/
  | logError
  /-- Call `stream.play_stream(game_rec, team_to_play, ...)`, line 183. -/
  | playCall (rec : GameRec) (team : String)
  deriving DecidableEq

/-- External collaborators and ambient state of one invocation of `main`.
Game data for one day (an element of `game_data_list`) is abstracted as a
`Nat` handle, resolved to a `GameRec` by `getGameRec`. -/
structure Env where
  /-- The fixed set `gamedata.TEAM_CODES` of known team codes. -/
  teamCodes : List String
  /-- Collaborator `mlb_gamedata.retrieve_and_display_game_data(date, days,
  display)`: one element of the returned list per day of the span. -/
  retrieve : String → Nat → Bool → List Nat
  /-- Collaborator `stream.get_game_rec(game_data, team, game_number)`. -/
  getGameRec : Nat → String → String → GameRec
  /-- Collaborator `gamedata.convert_to_long_feedtype(feed)`. -/
  convertFeed : String → String
  /-- Current time when `main` reaches the wait gate of line 162. -/
  now : Nat
  /-- External cancellation signal: `cancel k = true` means Ctrl-C arrives
  during the `k`-th sleep of the wait loop (0-based), aborting that sleep. -/
  cancel : Nat → Bool
  /-- Collaborator `stream.play_stream(rec, team, feedtype, date, fetch,
  from_start, inning)`; its return value becomes the exit code. -/
  play : GameRec → String → Option String → String → Bool → Bool → Option String → Int

/-- Parsed CLI arguments read by the modelled region of `main`.  `date` is the
value of `args.date` after the yesterday/tomorrow/today defaulting of lines
135-140. -/
structure Args where
  date : String
  days : Nat
  team : Option String
  game : String
  wait : Bool
  standings : Option String
  feed : Option String
  fetch : Bool
  fromStart : Bool
  inning : Option String

/-- Modelled from the spec: `util.has_reached_time(t)` (module `mlbam.util` is
not among the sources) answers whether the current time has reached the
scheduled start `t`. -/
def hasReachedTime (now t : Nat) : Bool := t ≤ now

/-- Lines 115-116: `team_to_play` is `None` unless `args.team` is truthy, in
which case it is `args.team.lower()`. -/
def teamToPlay (args : Args) : Option String :=
  if truthy args.team then args.team.map strLower else none

/-- Lines 117-119: a warning is logged when the lowered team code is not in
`gamedata.TEAM_CODES`; execution continues either way. -/
def warnTrace (env : Env) (args : Args) : List Event :=
  match teamToPlay args with
  | some t => if env.teamCodes.contains t then [] else [Event.warn t]
  | none => []

/-- Lines 120-121: the resolved feed type, `None` unless `args.feed` is
truthy, in which case `convert_to_long_feedtype(args.feed.lower())`. -/
def feedOf (env : Env) (args : Args) : Option String :=
  if truthy args.feed then args.feed.map (fun f => env.convertFeed (strLower f)) else none

/-- Lines 165-170: the wait loop, entered with `count = 0`.  Each iteration
checks `has_reached_time`, then sleeps 10 seconds (advancing simulated time by
10), increments `count`, and prints a progress dot when `count` has become a
multiple of 6.  The cancellation signal is polled during each sleep; a
cancellation aborts the sleep and the loop.  Returns the trace of loop events
and, unless cancelled, the time and iteration count at loop exit. -/
def pollLoop (cancel : Nat → Bool) (sched now count : Nat) :
    List Event × Option (Nat × Nat) :=
  if h : hasReachedTime now sched then ([], some (now, count))
  else if cancel count then ([], none)
  else
    let rest := pollLoop cancel sched (now + 10) (count + 1)
    (Event.sleep 10 :: ((if (count + 1) % 6 == 0 then [Event.dot] else []) ++ rest.1),
     rest.2)
termination_by sched - now
decreasing_by simp [hasReachedTime] at h; omega

/-- Number of iterations the wait loop performs when it is not cancelled:
the least `k` with `sched ≤ now + 10 * k`. -/
def pollIters (sched now : Nat) : Nat := (sched - now + 9) / 10

/-- Iteration structure the spec ascribes to the wait loop: the trace of `k`
uncancelled iterations starting at iteration index `count`, each sleeping a
fixed 10 seconds, with a progress dot after every sixth iteration. -/
def loopTrace (count : Nat) : Nat → List Event
  | 0 => []
  | k + 1 =>
      Event.sleep 10 :: ((if (count + 1) % 6 == 0 then [Event.dot] else []) ++
        loopTrace (count + 1) k)

/-- Line 183: dispatch to `stream.play_stream`; its return value is returned
by `main` as the exit code. -/
def dispatch (env : Env) (args : Args) (grec : GameRec) (team : String) : MainResult :=
  .exit (env.play grec team (feedOf env args) args.date args.fetch args.fromStart args.inning)

/-- Lines 172-183, run after the wait loop completes: refresh the game data
with a single-day fetch for the same date with display off, re-select the game
record, and dispatch; when the refresh comes back empty, log at error severity
and return 0. -/
def afterWait (env : Env) (args : Args) (team : String) : List Event × MainResult :=
  match env.retrieve args.date 1 false with
  | [] =>
      ([Event.logRefreshing, Event.retrieveCall args.date 1 false, Event.logError],
       MainResult.exit 0)
  | gd :: _ =>
      ([Event.logRefreshing, Event.retrieveCall args.date 1 false,
        Event.selectCall gd team args.game,
        Event.playCall (env.getGameRec gd team args.game) team],
       dispatch env args (env.getGameRec gd team args.game) team)

/-- Lines 154-183: take the first day of the fetched list (empty means return
0), select the game record, run the optional wait gate, and dispatch. -/
def gamePhase (env : Env) (args : Args) (team : String) (gameDataList : List Nat) :
    List Event × MainResult :=
  match gameDataList with
  | [] => ([], MainResult.exit 0)
  | gd :: _ =>
      let grec := env.getGameRec gd team args.game
      let sel := [Event.selectCall gd team args.game]
      if args.wait && !(hasReachedTime env.now grec.mlbdate) then
        let lp := pollLoop env.cancel grec.mlbdate env.now 0
        match lp.2 with
        | none => (sel ++ Event.logWaiting :: lp.1, MainResult.cancelled)
        | some _ =>
            let aft := afterWait env args team
            (sel ++ Event.logWaiting :: (lp.1 ++ aft.1), aft.2)
      else
        (sel ++ [Event.playCall grec team], dispatch env args grec team)

/-- Lines 142-183 of `main`: the modelled core.  Standings short-circuit, then
the initial fetch over the full requested day span (display on exactly when no
team is to be played), the no-team and empty-catalog early returns, and
`gamePhase`.  Returns the ordered event trace and the result. -/
def mainCore (env : Env) (args : Args) : List Event × MainResult :=
  let w := warnTrace env args
  if truthy args.standings then
    (w ++ [Event.standingsCall (args.standings.getD ("")) args.date], MainResult.exit 0)
  else
    let disp := (teamToPlay args).isNone
    let fetch := [Event.retrieveCall args.date args.days disp]
    match teamToPlay args with
    | none => (w ++ fetch, MainResult.exit 0)
    | some team =>
        let g := gamePhase env args team (env.retrieve args.date args.days disp)
        (w ++ fetch ++ g.1, g.2)

/-- Event classifier: playback dispatch. -/
def isPlay : Event → Bool
  | .playCall _ _ => true
  | _ => false

/-- Event classifier: a sleep of the wait loop. -/
def isSleep : Event → Bool
  | .sleep _ => true
  | _ => false

/-- Event classifier: a progress dot of the wait loop. -/
def isDot : Event → Bool
  | .dot => true
  | _ => false

/-- Event classifier: a catalog retrieval. -/
def isRetrieve : Event → Bool
  | .retrieveCall _ _ _ => true
  | _ => false

/-- Event classifier: the unknown-team-code warning. -/
def isWarn : Event → Bool
  | .warn _ => true
  | _ => false

/-- Event classifier: a game-record selection. -/
def isSelect : Event → Bool
  | .selectCall _ _ _ => true
  | _ => false

/-- The team identifier an event carries, if any. -/
def eventTeam : Event → Option String
  | .warn t => some t
  | .selectCall _ t _ => some t
  | .playCall _ t => some t
  | _ => none

/-- Test fixture: arguments asking to play team `BoS`, game 1, over a two-day
span, without waiting. -/
def argsPlain : Args :=
  { date := "2018-06-01", days := 2, team := some ("BoS"), game := "1",
    wait := false, standings := none, feed := none, fetch := false,
    fromStart := false, inning := none }

/-- Test fixture: like `argsPlain` but with the wait flag set. -/
def argsWait : Args := { argsPlain with wait := true }

/-- Test fixture: like `argsWait` but additionally requesting division
standings. -/
def argsStand : Args := { argsWait with standings := some ("division") }

/-- Test fixture: like `argsPlain` but with a mixed-case team code that is not
among the known team codes once lowered. -/
def argsOdd : Args := { argsPlain with team := some ("XyZ") }

/-- Test fixture environment: the catalog returns day handles `[5, 6]` for a
multi-day fetch and `[7]` for a single-day fetch; a game on day handle `gd`
starts at time `20 + gd` while the clock reads 0; no cancellation arrives. -/
def envPlain : Env :=
  { teamCodes := ["bos", "nyy"],
    retrieve := fun _ d _ => if d = 1 then [7] else [5, 6],
    getGameRec := fun gd _ _ => ⟨20 + gd⟩,
    convertFeed := fun f => f,
    now := 0,
    cancel := fun _ => false,
    play := fun _ _ _ _ _ _ _ => 0 }

/-- Test fixture: like `envPlain` but a cancellation signal arrives during the
second sleep of the wait loop. -/
def envCancel : Env := { envPlain with cancel := fun k => k == 1 }

/-- Test fixture: like `envPlain` but the single-day refresh fetch returns no
games. -/
def envEmptyRefresh : Env :=
  { envPlain with retrieve := fun _ d _ => if d = 1 then [] else [5, 6] }

/-- Test fixture: like `envPlain` but every fetch returns no games. -/
def envEmpty : Env := { envPlain with retrieve := fun _ _ _ => [] }

/- ------------------------------------------------------------------ -/
/- Helper lemmas about the wait loop and the trace segments.          -/
/- ------------------------------------------------------------------ -/

theorem pollLoop_of_noCancel (cancel : Nat → Bool) (sched : Nat)
    (hnc : ∀ n, cancel n = false) :
    ∀ now count, pollLoop cancel sched now count =
      (loopTrace count (pollIters sched now),
       some (now + 10 * pollIters sched now, count + pollIters sched now)) := by
  intro now count
  induction now, count using pollLoop.induct cancel sched with
  | case1 now count h =>
      have h0 : pollIters sched now = 0 := by
        simp [hasReachedTime] at h
        simp [pollIters]
        omega
      rw [pollLoop]
      simp [h, h0, loopTrace]
  | case2 now count h hc =>
      rw [hnc count] at hc
      exact absurd hc (by simp)
  | case3 now count h hc ih =>
      have hk : pollIters sched now = pollIters sched (now + 10) + 1 := by
        simp [hasReachedTime] at h
        simp [pollIters]
        omega
      rw [pollLoop]
      simp [h, hc, ih, hk, loopTrace, Prod.ext_iff]
      omega

theorem pollLoop_mem_sleep_dot (cancel : Nat → Bool) (sched : Nat) :
    ∀ now count, ∀ e ∈ (pollLoop cancel sched now count).1,
      e = Event.sleep 10 ∨ e = Event.dot := by
  intro now count
  induction now, count using pollLoop.induct cancel sched with
  | case1 now count h =>
      intro e he
      rw [pollLoop] at he
      simp [h] at he
  | case2 now count h hc =>
      intro e he
      rw [pollLoop] at he
      simp [h, hc] at he
  | case3 now count h hc ih =>
      intro e he
      rw [pollLoop] at he
      by_cases h6 : ((count + 1) % 6 == 0) = true
      · simp [h, hc, h6] at he
        rcases he with he | he | he
        · exact Or.inl he
        · exact Or.inr he
        · exact ih e he
      · simp [h, hc, h6] at he
        rcases he with he | he
        · exact Or.inl he
        · exact ih e he

theorem trace_filter_eq_nil {l : List Event} {p : Event → Bool}
    (h : ∀ e ∈ l, p e = false) : l.filter p = [] := by
  rw [List.filter_eq_nil_iff]
  intro a ha
  simp [h a ha]

theorem pollLoop_filter_eq_nil (cancel : Nat → Bool) (sched now count : Nat)
    (p : Event → Bool) (h10 : p (Event.sleep 10) = false) (hd : p Event.dot = false) :
    ((pollLoop cancel sched now count).1).filter p = [] := by
  apply trace_filter_eq_nil
  intro e he
  rcases pollLoop_mem_sleep_dot cancel sched now count e he with rfl | rfl
  · exact h10
  · exact hd

theorem loopTrace_filter_sleep : ∀ k count,
    (loopTrace count k).filter isSleep = List.replicate k (Event.sleep 10) := by
  intro k
  induction k with
  | zero => intro count; simp [loopTrace]
  | succ k ih =>
      intro count
      by_cases h6 : ((count + 1) % 6 == 0) = true <;>
        simp [loopTrace, h6, isSleep, ih, List.replicate_succ]

theorem loopTrace_filter_dot : ∀ k count, ((loopTrace count k).filter isDot).length
    = (count + k) / 6 - count / 6 := by
  intro k
  induction k with
  | zero => intro count; simp [loopTrace]
  | succ k ih =>
      intro count
      by_cases h6 : ((count + 1) % 6 == 0) = true
      · have h6n : (count + 1) % 6 = 0 := by simpa using h6
        simp [loopTrace, h6, isDot, ih]
        omega
      · have h6n : ¬ (count + 1) % 6 = 0 := by simpa using h6
        simp [loopTrace, h6, isDot, ih]
        omega

theorem warnTrace_filter (env : Env) (args : Args) (p : Event → Bool)
    (h : ∀ t, p (Event.warn t) = false) : (warnTrace env args).filter p = [] := by
  unfold warnTrace
  cases teamToPlay args with
  | none => simp
  | some t => split <;> simp [h]

theorem pollLoop_cancelled (cancel : Nat → Bool) (sched : Nat) :
    ∀ now count, (∃ j, j < pollIters sched now ∧ cancel (count + j) = true) →
      (pollLoop cancel sched now count).2 = none := by
  intro now count
  induction now, count using pollLoop.induct cancel sched with
  | case1 now count h =>
      rintro ⟨j, hj, -⟩
      have h0 : pollIters sched now = 0 := by
        simp [hasReachedTime] at h
        simp [pollIters]
        omega
      rw [h0] at hj
      exact absurd hj (by omega)
  | case2 now count h hc =>
      intro _
      rw [pollLoop]
      simp [h, hc]
  | case3 now count h hc ih =>
      rintro ⟨j, hj, hcj⟩
      rw [pollLoop]
      simp [h, hc]
      apply ih
      have hk : pollIters sched now = pollIters sched (now + 10) + 1 := by
        simp [hasReachedTime] at h
        simp [pollIters]
        omega
      cases j with
      | zero =>
          simp at hcj
          exact absurd hcj (by simpa using hc)
      | succ j =>
          refine ⟨j, by omega, ?_⟩
          rw [show count + 1 + j = count + (j + 1) from by omega]
          exact hcj

/- Branch equations for `mainCore`. -/

theorem mainCore_eq_standings (env : Env) (args : Args)
    (hst : truthy args.standings = true) :
    mainCore env args =
      (warnTrace env args ++ [Event.standingsCall (args.standings.getD ("")) args.date],
       MainResult.exit 0) := by
  unfold mainCore
  simp [hst]

theorem mainCore_eq_no_team (env : Env) (args : Args)
    (hst : truthy args.standings = false) (ht : teamToPlay args = none) :
    mainCore env args =
      (warnTrace env args ++ [Event.retrieveCall args.date args.days true],
       MainResult.exit 0) := by
  unfold mainCore
  simp [hst, ht]

theorem mainCore_eq_empty (env : Env) (args : Args) (t : String)
    (hst : truthy args.standings = false) (ht : teamToPlay args = some t)
    (hl : env.retrieve args.date args.days false = []) :
    mainCore env args =
      (warnTrace env args ++ [Event.retrieveCall args.date args.days false],
       MainResult.exit 0) := by
  unfold mainCore gamePhase
  simp [hst, ht, hl]

theorem mainCore_eq_play (env : Env) (args : Args) (t : String) (gd : Nat)
    (rest : List Nat)
    (hst : truthy args.standings = false) (ht : teamToPlay args = some t)
    (hl : env.retrieve args.date args.days false = gd :: rest)
    (hcond : (args.wait && !(hasReachedTime env.now (env.getGameRec gd t args.game).mlbdate)) = false) :
    mainCore env args =
      (warnTrace env args ++
        Event.retrieveCall args.date args.days false ::
        Event.selectCall gd t args.game ::
        [Event.playCall (env.getGameRec gd t args.game) t],
       dispatch env args (env.getGameRec gd t args.game) t) := by
  unfold mainCore gamePhase
  simp [hst, ht, hl, hcond]

theorem mainCore_eq_cancelled (env : Env) (args : Args) (t : String) (gd : Nat)
    (rest : List Nat)
    (hst : truthy args.standings = false) (ht : teamToPlay args = some t)
    (hl : env.retrieve args.date args.days false = gd :: rest)
    (hcond : (args.wait && !(hasReachedTime env.now (env.getGameRec gd t args.game).mlbdate)) = true)
    (hlp : (pollLoop env.cancel (env.getGameRec gd t args.game).mlbdate env.now 0).2 = none) :
    mainCore env args =
      (warnTrace env args ++
        Event.retrieveCall args.date args.days false ::
        Event.selectCall gd t args.game ::
        Event.logWaiting ::
        (pollLoop env.cancel (env.getGameRec gd t args.game).mlbdate env.now 0).1,
       MainResult.cancelled) := by
  unfold mainCore gamePhase
  simp [hst, ht, hl, hcond, hlp]

theorem mainCore_eq_waited (env : Env) (args : Args) (t : String) (gd : Nat)
    (rest : List Nat) (p : Nat × Nat)
    (hst : truthy args.standings = false) (ht : teamToPlay args = some t)
    (hl : env.retrieve args.date args.days false = gd :: rest)
    (hcond : (args.wait && !(hasReachedTime env.now (env.getGameRec gd t args.game).mlbdate)) = true)
    (hlp : (pollLoop env.cancel (env.getGameRec gd t args.game).mlbdate env.now 0).2 = some p) :
    mainCore env args =
      (warnTrace env args ++
        Event.retrieveCall args.date args.days false ::
        Event.selectCall gd t args.game ::
        Event.logWaiting ::
        ((pollLoop env.cancel (env.getGameRec gd t args.game).mlbdate env.now 0).1 ++
          (afterWait env args t).1),
       (afterWait env args t).2) := by
  unfold mainCore gamePhase
  simp [hst, ht, hl, hcond, hlp]

theorem afterWait_filter_retrieve (env : Env) (args : Args) (team : String) :
    ((afterWait env args team).1).filter isRetrieve
      = [Event.retrieveCall args.date 1 false] := by
  unfold afterWait
  cases env.retrieve args.date 1 false <;> simp [isRetrieve]

theorem afterWait_filter_none (env : Env) (args : Args) (team : String)
    (p : Event → Bool) (h1 : p Event.logRefreshing = false)
    (h2 : ∀ d n b, p (Event.retrieveCall d n b) = false)
    (h3 : p Event.logError = false)
    (h4 : ∀ g u gm, p (Event.selectCall g u gm) = false)
    (h5 : ∀ r u, p (Event.playCall r u) = false) :
    ((afterWait env args team).1).filter p = [] := by
  unfold afterWait
  cases env.retrieve args.date 1 false <;> simp [h1, h2, h3, h4, h5]

theorem afterWait_mem_team (env : Env) (args : Args) (team : String) :
    ∀ e ∈ (afterWait env args team).1,
      eventTeam e = none ∨ eventTeam e = some team := by
  unfold afterWait
  cases env.retrieve args.date 1 false with
  | nil =>
      intro e he
      simp at he
      rcases he with rfl | rfl | rfl <;> simp [eventTeam]
  | cons gd tl =>
      intro e he
      simp at he
      rcases he with rfl | rfl | rfl | rfl <;> simp [eventTeam]

theorem warnTrace_eq (env : Env) (args : Args) (t : String)
    (ht : teamToPlay args = some t) :
    warnTrace env args
      = if env.teamCodes.contains t then [] else [Event.warn t] := by
  unfold warnTrace
  simp [ht]

theorem warnTrace_mem_team (env : Env) (args : Args) (t : String)
    (ht : teamToPlay args = some t) :
    ∀ e ∈ warnTrace env args, e = Event.warn t := by
  rw [warnTrace_eq env args t ht]
  split <;> simp

theorem take_length_add_append {α : Type} (l1 l2 : List α) (n : Nat) :
    (l1 ++ l2).take (l1.length + n) = l1 ++ l2.take n := by
  induction l1 with
  | nil => simp
  | cons a l ih =>
      simp only [List.cons_append, List.length_cons]
      rw [show l.length + 1 + n = l.length + n + 1 from by omega,
          List.take_succ_cons, ih]

/- ------------------------------------------------------------------ -/
/- Claim theorems.                                                    -/
/- ------------------------------------------------------------------ -/

/-- C4: for every scheduled start value, if the wait flag is off, the
operation proceeds immediately with no sleeping and no polling; and likewise
when the wait flag is on but the current time has already reached the
scheduled start, the polling loop is never entered: the initially selected
game record is dispatched directly. -/
theorem c4_no_wait_proceeds_immediately (env : Env) (args : Args) (t : String)
    (gd : Nat) (rest : List Nat)
    (hst : truthy args.standings = false)
    (ht : teamToPlay args = some t)
    (hl : env.retrieve args.date args.days false = gd :: rest)
    (hw : args.wait = false ∨
      hasReachedTime env.now (env.getGameRec gd t args.game).mlbdate = true) :
    ((mainCore env args).1).filter isSleep = [] ∧
    ((mainCore env args).1).filter isDot = [] ∧
    ((mainCore env args).1).filter isPlay
      = [Event.playCall (env.getGameRec gd t args.game) t] ∧
    (mainCore env args).2 = dispatch env args (env.getGameRec gd t args.game) t := by
  have hcond : (args.wait &&
      !(hasReachedTime env.now (env.getGameRec gd t args.game).mlbdate)) = false := by
    rcases hw with hw | hw <;> simp [hw]
  rw [mainCore_eq_play env args t gd rest hst ht hl hcond]
  refine ⟨?_, ?_, ?_, rfl⟩
  · simp [List.filter_append, warnTrace_filter env args isSleep (fun _ => rfl), isSleep]
  · simp [List.filter_append, warnTrace_filter env args isDot (fun _ => rfl), isDot]
  · simp [List.filter_append, warnTrace_filter env args isPlay (fun _ => rfl), isPlay]

/-- Witness for C4 at a concrete input: team given, wait flag off. -/
theorem c4_witness :
    ((mainCore envPlain argsPlain).1).filter isSleep = [] ∧
    ((mainCore envPlain argsPlain).1).filter isDot = [] ∧
    ((mainCore envPlain argsPlain).1).filter isPlay
      = [Event.playCall (envPlain.getGameRec 5 "bos" argsPlain.game) "bos"] ∧
    (mainCore envPlain argsPlain).2
      = dispatch envPlain argsPlain (envPlain.getGameRec 5 "bos" argsPlain.game) "bos" :=
  c4_no_wait_proceeds_immediately envPlain argsPlain ("bos") 5 [6]
    (by decide) (by decide) (by decide) (Or.inl (by decide))

/-- C10: when the standings option is present (with a non-empty value, which
is how the source tests it), the program displays standings and returns exit
code 0 with no catalog fetch, no game selection, no wait and no stream
dispatch — even when a team and the wait flag are also given. -/
theorem c10_standings_short_circuit (env : Env) (args : Args)
    (hst : truthy args.standings = true) :
    (mainCore env args).2 = MainResult.exit 0 ∧
    Event.standingsCall (args.standings.getD ("")) args.date ∈ (mainCore env args).1 ∧
    ((mainCore env args).1).filter isRetrieve = [] ∧
    ((mainCore env args).1).filter isSelect = [] ∧
    ((mainCore env args).1).filter isSleep = [] ∧
    ((mainCore env args).1).filter isPlay = [] := by
  rw [mainCore_eq_standings env args hst]
  refine ⟨rfl, by simp, ?_, ?_, ?_, ?_⟩
  · simp [List.filter_append, warnTrace_filter env args isRetrieve (fun _ => rfl), isRetrieve]
  · simp [List.filter_append, warnTrace_filter env args isSelect (fun _ => rfl), isSelect]
  · simp [List.filter_append, warnTrace_filter env args isSleep (fun _ => rfl), isSleep]
  · simp [List.filter_append, warnTrace_filter env args isPlay (fun _ => rfl), isPlay]

/-- Witness for C10 at a concrete input where a team and the wait flag are
also specified. -/
theorem c10_witness :
    (mainCore envPlain argsStand).2 = MainResult.exit 0 ∧
    Event.standingsCall (argsStand.standings.getD ("")) argsStand.date
      ∈ (mainCore envPlain argsStand).1 ∧
    ((mainCore envPlain argsStand).1).filter isRetrieve = [] ∧
    ((mainCore envPlain argsStand).1).filter isSelect = [] ∧
    ((mainCore envPlain argsStand).1).filter isSleep = [] ∧
    ((mainCore envPlain argsStand).1).filter isPlay = [] :=
  c10_standings_short_circuit envPlain argsStand (by decide)

/-- C6: an uncancelled run of the polling loop has exactly the iteration
structure `loopTrace`: each of its `pollIters` iterations sleeps a fixed 10
seconds and then re-checks whether the clock has reached the scheduled start
(the loop body of `pollLoop`), the sleep events are exactly `pollIters` many
sleeps of 10 seconds, and a progress dot is emitted after exactly every sixth
iteration — `pollIters / 6` dots in total. -/
theorem c6_iteration_structure (cancel : Nat → Bool) (sched now : Nat)
    (hnc : ∀ n, cancel n = false) :
    (pollLoop cancel sched now 0).1 = loopTrace 0 (pollIters sched now) ∧
    ((pollLoop cancel sched now 0).1).filter isSleep
      = List.replicate (pollIters sched now) (Event.sleep 10) ∧
    (((pollLoop cancel sched now 0).1).filter isDot).length
      = pollIters sched now / 6 := by
  have h := pollLoop_of_noCancel cancel sched hnc now 0
  rw [h]
  refine ⟨rfl, loopTrace_filter_sleep _ _, ?_⟩
  rw [loopTrace_filter_dot]
  omega

/-- Witness for C6 at a concrete input: start 125 seconds in the future, 13
iterations, hence 2 progress dots. -/
theorem c6_witness :
    (pollLoop (fun _ => false) 125 0 0).1 = loopTrace 0 (pollIters 125 0) ∧
    ((pollLoop (fun _ => false) 125 0 0).1).filter isSleep
      = List.replicate (pollIters 125 0) (Event.sleep 10) ∧
    (((pollLoop (fun _ => false) 125 0 0).1).filter isDot).length
      = pollIters 125 0 / 6 :=
  c6_iteration_structure (fun _ => false) 125 0 (fun _ => rfl)

/-- C2 fails as stated: in this run the operation proceeds past the start gate
(the gate reports Reached without an actual wait, since the wait flag is off)
and playback is dispatched, yet there is exactly one catalog retrieval and one
selector run in the whole run — no refreshed fetch and no re-selection
happen. -/
theorem c2_counterexample :
    ((mainCore envPlain argsPlain).1).filter isPlay ≠ [] ∧
    (((mainCore envPlain argsPlain).1).filter isRetrieve).length = 1 ∧
    (((mainCore envPlain argsPlain).1).filter isSelect).length = 1 := by
  decide

/-- C2 amended: whenever the polling wait actually occurred and completed
uncancelled, the caller re-fetches the game state with a single retrieval
restricted to the requested date (`dayCount = 1`, display off) and re-runs the
selector with the same team and game number on the refreshed result before
dispatching playback — the full trace and result are exactly as stated. -/
theorem c2_refresh_after_actual_wait (env : Env) (args : Args) (t : String)
    (gd gd2 : Nat) (rest rest2 : List Nat)
    (hst : truthy args.standings = false)
    (ht : teamToPlay args = some t)
    (hl : env.retrieve args.date args.days false = gd :: rest)
    (hw : args.wait = true)
    (hfut : hasReachedTime env.now (env.getGameRec gd t args.game).mlbdate = false)
    (hnc : ∀ n, env.cancel n = false)
    (hr2 : env.retrieve args.date 1 false = gd2 :: rest2) :
    (mainCore env args).1
      = warnTrace env args ++
        Event.retrieveCall args.date args.days false ::
        Event.selectCall gd t args.game ::
        Event.logWaiting ::
        ((pollLoop env.cancel (env.getGameRec gd t args.game).mlbdate env.now 0).1 ++
          Event.logRefreshing ::
          Event.retrieveCall args.date 1 false ::
          Event.selectCall gd2 t args.game ::
          [Event.playCall (env.getGameRec gd2 t args.game) t]) ∧
    (mainCore env args).2 = dispatch env args (env.getGameRec gd2 t args.game) t := by
  have hcond : (args.wait &&
      !(hasReachedTime env.now (env.getGameRec gd t args.game).mlbdate)) = true := by
    simp [hw, hfut]
  have hlp : (pollLoop env.cancel (env.getGameRec gd t args.game).mlbdate env.now 0).2
      = some (env.now + 10 * pollIters (env.getGameRec gd t args.game).mlbdate env.now,
              0 + pollIters (env.getGameRec gd t args.game).mlbdate env.now) := by
    rw [pollLoop_of_noCancel env.cancel _ hnc env.now 0]
  rw [mainCore_eq_waited env args t gd rest _ hst ht hl hcond hlp]
  have haw : afterWait env args t =
      (Event.logRefreshing ::
        Event.retrieveCall args.date 1 false ::
        Event.selectCall gd2 t args.game ::
        [Event.playCall (env.getGameRec gd2 t args.game) t],
       dispatch env args (env.getGameRec gd2 t args.game) t) := by
    unfold afterWait
    simp [hr2]
  rw [haw]
  exact ⟨rfl, rfl⟩

/-- Witness for the amended C2: waits three loop iterations, then refreshes
with a single-day fetch and dispatches the re-selected record. -/
theorem c2_amended_witness :
    (mainCore envPlain argsWait).1
      = warnTrace envPlain argsWait ++
        Event.retrieveCall argsWait.date argsWait.days false ::
        Event.selectCall 5 "bos" argsWait.game ::
        Event.logWaiting ::
        ((pollLoop envPlain.cancel
            (envPlain.getGameRec 5 "bos" argsWait.game).mlbdate envPlain.now 0).1 ++
          Event.logRefreshing ::
          Event.retrieveCall argsWait.date 1 false ::
          Event.selectCall 7 "bos" argsWait.game ::
          [Event.playCall (envPlain.getGameRec 7 "bos" argsWait.game) "bos"]) ∧
    (mainCore envPlain argsWait).2
      = dispatch envPlain argsWait (envPlain.getGameRec 7 "bos" argsWait.game) "bos" :=
  c2_refresh_after_actual_wait envPlain argsWait ("bos") 5 7 [6] []
    (by decide) (by decide) (by decide) rfl (by decide) (fun _ => rfl) (by decide)

/-- C3: whenever there is nothing to play — no team resolved, an empty initial
fetch, or an empty post-wait refresh fetch — the program returns exit code 0
and the stream dispatcher is never invoked; in the empty-refresh case an
error-severity log is additionally emitted before returning 0. -/
theorem c3_nothing_to_play_exits_zero (env : Env) (args : Args) :
    (teamToPlay args = none →
      (mainCore env args).2 = MainResult.exit 0 ∧
      ((mainCore env args).1).filter isPlay = []) ∧
    (env.retrieve args.date args.days ((teamToPlay args).isNone) = [] →
      (mainCore env args).2 = MainResult.exit 0 ∧
      ((mainCore env args).1).filter isPlay = []) ∧
    (∀ t gd rest, truthy args.standings = false → teamToPlay args = some t →
      env.retrieve args.date args.days false = gd :: rest →
      args.wait = true →
      hasReachedTime env.now (env.getGameRec gd t args.game).mlbdate = false →
      (∀ n, env.cancel n = false) →
      env.retrieve args.date 1 false = [] →
      (mainCore env args).2 = MainResult.exit 0 ∧
      ((mainCore env args).1).filter isPlay = [] ∧
      Event.logError ∈ (mainCore env args).1) := by
  refine ⟨?_, ?_, ?_⟩
  · intro ht
    rcases Bool.eq_false_or_eq_true (truthy args.standings) with hst | hst
    · rw [mainCore_eq_standings env args hst]
      refine ⟨rfl, ?_⟩
      simp [List.filter_append, warnTrace_filter env args isPlay (fun _ => rfl), isPlay]
    · rw [mainCore_eq_no_team env args hst ht]
      refine ⟨rfl, ?_⟩
      simp [List.filter_append, warnTrace_filter env args isPlay (fun _ => rfl), isPlay]
  · intro hl
    rcases Bool.eq_false_or_eq_true (truthy args.standings) with hst | hst
    · rw [mainCore_eq_standings env args hst]
      refine ⟨rfl, ?_⟩
      simp [List.filter_append, warnTrace_filter env args isPlay (fun _ => rfl), isPlay]
    · cases ht : teamToPlay args with
      | none =>
          rw [mainCore_eq_no_team env args hst ht]
          refine ⟨rfl, ?_⟩
          simp [List.filter_append, warnTrace_filter env args isPlay (fun _ => rfl), isPlay]
      | some t =>
          rw [ht] at hl
          simp only [Option.isNone_some] at hl
          rw [mainCore_eq_empty env args t hst ht hl]
          refine ⟨rfl, ?_⟩
          simp [List.filter_append, warnTrace_filter env args isPlay (fun _ => rfl), isPlay]
  · intro t gd rest hst ht hl hw hfut hnc hr2
    have hcond : (args.wait &&
        !(hasReachedTime env.now (env.getGameRec gd t args.game).mlbdate)) = true := by
      simp [hw, hfut]
    have hlp : (pollLoop env.cancel (env.getGameRec gd t args.game).mlbdate env.now 0).2
        = some (env.now + 10 * pollIters (env.getGameRec gd t args.game).mlbdate env.now,
                0 + pollIters (env.getGameRec gd t args.game).mlbdate env.now) := by
      rw [pollLoop_of_noCancel env.cancel _ hnc env.now 0]
    rw [mainCore_eq_waited env args t gd rest _ hst ht hl hcond hlp]
    have haw : afterWait env args t =
        ([Event.logRefreshing, Event.retrieveCall args.date 1 false, Event.logError],
         MainResult.exit 0) := by
      unfold afterWait
      simp [hr2]
    rw [haw]
    refine ⟨rfl, ?_, ?_⟩
    · simp [List.filter_append, warnTrace_filter env args isPlay (fun _ => rfl), isPlay,
            pollLoop_filter_eq_nil env.cancel _ env.now 0 isPlay rfl rfl]
    · simp

/-- Witness for C3 at a concrete input exercising the empty-refresh case. -/
theorem c3_witness :
    (mainCore envEmptyRefresh argsWait).2 = MainResult.exit 0 ∧
    ((mainCore envEmptyRefresh argsWait).1).filter isPlay = [] ∧
    Event.logError ∈ (mainCore envEmptyRefresh argsWait).1 :=
  (c3_nothing_to_play_exits_zero envEmptyRefresh argsWait).2.2 "bos" 5 [6]
    (by decide) (by decide) (by decide) rfl (by decide) (fun _ => rfl) (by decide)

/-- C5: if an external cancellation signal arrives during an iteration of the
polling wait loop, the run ends in the cancelled state and the stream
dispatcher is never invoked. -/
theorem c5_cancellation_no_dispatch (env : Env) (args : Args) (t : String)
    (gd : Nat) (rest : List Nat)
    (hst : truthy args.standings = false)
    (ht : teamToPlay args = some t)
    (hl : env.retrieve args.date args.days false = gd :: rest)
    (hcond : (args.wait &&
      !(hasReachedTime env.now (env.getGameRec gd t args.game).mlbdate)) = true)
    (hc : ∃ k, k < pollIters (env.getGameRec gd t args.game).mlbdate env.now ∧
      env.cancel k = true) :
    (mainCore env args).2 = MainResult.cancelled ∧
    ((mainCore env args).1).filter isPlay = [] := by
  have hlp : (pollLoop env.cancel (env.getGameRec gd t args.game).mlbdate env.now 0).2
      = none := by
    apply pollLoop_cancelled
    obtain ⟨k, hk1, hk2⟩ := hc
    exact ⟨k, hk1, by simpa using hk2⟩
  rw [mainCore_eq_cancelled env args t gd rest hst ht hl hcond hlp]
  refine ⟨rfl, ?_⟩
  simp [List.filter_append, warnTrace_filter env args isPlay (fun _ => rfl), isPlay,
        pollLoop_filter_eq_nil env.cancel _ env.now 0 isPlay rfl rfl]

/-- Witness for C5 at a concrete input: Ctrl-C during the second sleep. -/
theorem c5_witness :
    (mainCore envCancel argsWait).2 = MainResult.cancelled ∧
    ((mainCore envCancel argsWait).1).filter isPlay = [] :=
  c5_cancellation_no_dispatch envCancel argsWait ("bos") 5 [6]
    (by decide) (by decide) (by decide) (by decide) ⟨1, by decide, by decide⟩

/-- C7: the initial game record is resolved by running the selector over the
output of the catalog fetch for the requested date and the full requested day
span: directly after the (possible) team-code warning, which performs no fetch
and no selection, the trace is the full-span retrieval followed by the
selector call on its first day with the requested team and game number. -/
theorem c7_initial_selection_full_span (env : Env) (args : Args) (t : String)
    (gd : Nat) (rest : List Nat)
    (hst : truthy args.standings = false)
    (ht : teamToPlay args = some t)
    (hl : env.retrieve args.date args.days false = gd :: rest) :
    ((mainCore env args).1).take ((warnTrace env args).length + 2)
      = warnTrace env args ++
        [Event.retrieveCall args.date args.days false,
         Event.selectCall gd t args.game] ∧
    (warnTrace env args).filter isRetrieve = [] ∧
    (warnTrace env args).filter isSelect = [] := by
  refine ⟨?_, warnTrace_filter env args isRetrieve (fun _ => rfl),
          warnTrace_filter env args isSelect (fun _ => rfl)⟩
  rcases Bool.eq_false_or_eq_true
      (args.wait && !(hasReachedTime env.now (env.getGameRec gd t args.game).mlbdate))
      with hcond | hcond
  · cases hlp : (pollLoop env.cancel (env.getGameRec gd t args.game).mlbdate env.now 0).2 with
    | none =>
        rw [mainCore_eq_cancelled env args t gd rest hst ht hl hcond hlp]
        rw [take_length_add_append]
        simp
    | some p =>
        rw [mainCore_eq_waited env args t gd rest p hst ht hl hcond hlp]
        rw [take_length_add_append]
        simp
  · rw [mainCore_eq_play env args t gd rest hst ht hl hcond]
    rw [take_length_add_append]
    simp

/-- C1: with the wait flag on and the scheduled start strictly in the future,
and no cancellation signal ever arriving, the polling loop blocks — at least
one sleep happens — and terminates exactly when the simulated clock reaches
the scheduled start: it runs `pollIters` iterations, exiting at the first
polled time at or past the start while the previous poll was still before it;
afterwards the operation proceeds to the refreshed dispatch. -/
theorem c1_wait_blocks_until_start (env : Env) (args : Args) (t : String)
    (gd gd2 : Nat) (rest rest2 : List Nat)
    (hst : truthy args.standings = false)
    (ht : teamToPlay args = some t)
    (hl : env.retrieve args.date args.days false = gd :: rest)
    (hw : args.wait = true)
    (hfut : hasReachedTime env.now (env.getGameRec gd t args.game).mlbdate = false)
    (hnc : ∀ n, env.cancel n = false)
    (hr2 : env.retrieve args.date 1 false = gd2 :: rest2) :
    1 ≤ pollIters (env.getGameRec gd t args.game).mlbdate env.now ∧
    pollLoop env.cancel (env.getGameRec gd t args.game).mlbdate env.now 0
      = (loopTrace 0 (pollIters (env.getGameRec gd t args.game).mlbdate env.now),
         some (env.now + 10 * pollIters (env.getGameRec gd t args.game).mlbdate env.now,
               pollIters (env.getGameRec gd t args.game).mlbdate env.now)) ∧
    (env.getGameRec gd t args.game).mlbdate
      ≤ env.now + 10 * pollIters (env.getGameRec gd t args.game).mlbdate env.now ∧
    env.now + 10 * (pollIters (env.getGameRec gd t args.game).mlbdate env.now - 1)
      < (env.getGameRec gd t args.game).mlbdate ∧
    (((mainCore env args).1).filter isSleep).length
      = pollIters (env.getGameRec gd t args.game).mlbdate env.now ∧
    (mainCore env args).2 = dispatch env args (env.getGameRec gd2 t args.game) t := by
  have hfut2 : ¬ (env.getGameRec gd t args.game).mlbdate ≤ env.now := by
    simpa [hasReachedTime] using hfut
  have hcond : (args.wait &&
      !(hasReachedTime env.now (env.getGameRec gd t args.game).mlbdate)) = true := by
    simp [hw, hfut]
  have hloop := pollLoop_of_noCancel env.cancel
    (env.getGameRec gd t args.game).mlbdate hnc env.now 0
  rw [Nat.zero_add] at hloop
  have hlp : (pollLoop env.cancel (env.getGameRec gd t args.game).mlbdate env.now 0).2
      = some (env.now + 10 * pollIters (env.getGameRec gd t args.game).mlbdate env.now,
              pollIters (env.getGameRec gd t args.game).mlbdate env.now) := by
    rw [hloop]
  refine ⟨?_, hloop, ?_, ?_, ?_, ?_⟩
  · simp only [pollIters]
    omega
  · simp only [pollIters]
    omega
  · simp only [pollIters]
    omega
  · rw [mainCore_eq_waited env args t gd rest _ hst ht hl hcond hlp]
    simp [List.filter_append, warnTrace_filter env args isSleep (fun _ => rfl), isSleep,
          hloop, loopTrace_filter_sleep,
          afterWait_filter_none env args t isSleep rfl (fun _ _ _ => rfl) rfl
            (fun _ _ _ => rfl) (fun _ _ => rfl)]
  · rw [mainCore_eq_waited env args t gd rest _ hst ht hl hcond hlp]
    unfold afterWait
    simp [hr2]

/-- Witness for C1 at a concrete input: start 25 seconds ahead, 3 sleeps. -/
theorem c1_witness :
    1 ≤ pollIters (envPlain.getGameRec 5 "bos" argsWait.game).mlbdate envPlain.now ∧
    pollLoop envPlain.cancel (envPlain.getGameRec 5 "bos" argsWait.game).mlbdate
        envPlain.now 0
      = (loopTrace 0
          (pollIters (envPlain.getGameRec 5 "bos" argsWait.game).mlbdate envPlain.now),
         some (envPlain.now
            + 10 * pollIters (envPlain.getGameRec 5 "bos" argsWait.game).mlbdate envPlain.now,
           pollIters (envPlain.getGameRec 5 "bos" argsWait.game).mlbdate envPlain.now)) ∧
    (envPlain.getGameRec 5 "bos" argsWait.game).mlbdate
      ≤ envPlain.now
        + 10 * pollIters (envPlain.getGameRec 5 "bos" argsWait.game).mlbdate envPlain.now ∧
    envPlain.now
      + 10 * (pollIters (envPlain.getGameRec 5 "bos" argsWait.game).mlbdate envPlain.now - 1)
      < (envPlain.getGameRec 5 "bos" argsWait.game).mlbdate ∧
    (((mainCore envPlain argsWait).1).filter isSleep).length
      = pollIters (envPlain.getGameRec 5 "bos" argsWait.game).mlbdate envPlain.now ∧
    (mainCore envPlain argsWait).2
      = dispatch envPlain argsWait (envPlain.getGameRec 7 "bos" argsWait.game) "bos" :=
  c1_wait_blocks_until_start envPlain argsWait ("bos") 5 7 [6] []
    (by decide) (by decide) (by decide) rfl (by decide) (fun _ => rfl) (by decide)

/-- C9: every invocation calls the catalog retrieve operation at most twice —
an initial fetch and at most one post-wait refresh — and any retrieval after
the first is exactly the single-day (`dayCount = 1`) fetch for the same
requested date with display disabled. -/
theorem c9_at_most_two_retrievals (env : Env) (args : Args) :
    (((mainCore env args).1).filter isRetrieve).length ≤ 2 ∧
    (((mainCore env args).1).filter isRetrieve).drop 1
      = List.replicate ((((mainCore env args).1).filter isRetrieve).length - 1)
          (Event.retrieveCall args.date 1 false) := by
  rcases Bool.eq_false_or_eq_true (truthy args.standings) with hst | hst
  · have hfil : ((mainCore env args).1).filter isRetrieve = [] := by
      rw [mainCore_eq_standings env args hst]
      simp [List.filter_append, warnTrace_filter env args isRetrieve (fun _ => rfl),
            isRetrieve]
    rw [hfil]
    simp
  · cases ht : teamToPlay args with
    | none =>
        have hfil : ((mainCore env args).1).filter isRetrieve
            = [Event.retrieveCall args.date args.days true] := by
          rw [mainCore_eq_no_team env args hst ht]
          simp [List.filter_append, warnTrace_filter env args isRetrieve (fun _ => rfl),
                isRetrieve]
        rw [hfil]
        simp
    | some t =>
        cases hl : env.retrieve args.date args.days false with
        | nil =>
            have hfil : ((mainCore env args).1).filter isRetrieve
                = [Event.retrieveCall args.date args.days false] := by
              rw [mainCore_eq_empty env args t hst ht hl]
              simp [List.filter_append,
                    warnTrace_filter env args isRetrieve (fun _ => rfl), isRetrieve]
            rw [hfil]
            simp
        | cons gd rest =>
            rcases Bool.eq_false_or_eq_true
                (args.wait &&
                  !(hasReachedTime env.now (env.getGameRec gd t args.game).mlbdate))
              with hcond | hcond
            · cases hlp : (pollLoop env.cancel
                  (env.getGameRec gd t args.game).mlbdate env.now 0).2 with
              | none =>
                  have hfil : ((mainCore env args).1).filter isRetrieve
                      = [Event.retrieveCall args.date args.days false] := by
                    rw [mainCore_eq_cancelled env args t gd rest hst ht hl hcond hlp]
                    simp [List.filter_append,
                          warnTrace_filter env args isRetrieve (fun _ => rfl), isRetrieve,
                          pollLoop_filter_eq_nil env.cancel _ env.now 0 isRetrieve rfl rfl]
                  rw [hfil]
                  simp
              | some p =>
                  have hfil : ((mainCore env args).1).filter isRetrieve
                      = [Event.retrieveCall args.date args.days false,
                         Event.retrieveCall args.date 1 false] := by
                    rw [mainCore_eq_waited env args t gd rest p hst ht hl hcond hlp]
                    simp [List.filter_append,
                          warnTrace_filter env args isRetrieve (fun _ => rfl), isRetrieve,
                          pollLoop_filter_eq_nil env.cancel _ env.now 0 isRetrieve rfl rfl,
                          afterWait_filter_retrieve env args t]
                  rw [hfil]
                  simp
            · have hfil : ((mainCore env args).1).filter isRetrieve
                  = [Event.retrieveCall args.date args.days false] := by
                rw [mainCore_eq_play env args t gd rest hst ht hl hcond]
                simp [List.filter_append,
                      warnTrace_filter env args isRetrieve (fun _ => rfl), isRetrieve]
              rw [hfil]
              simp

/-- Witness for C7 at a concrete input. -/
theorem c7_witness :
    ((mainCore envPlain argsPlain).1).take ((warnTrace envPlain argsPlain).length + 2)
      = warnTrace envPlain argsPlain ++
        [Event.retrieveCall argsPlain.date argsPlain.days false,
         Event.selectCall 5 "bos" argsPlain.game] ∧
    (warnTrace envPlain argsPlain).filter isRetrieve = [] ∧
    (warnTrace envPlain argsPlain).filter isSelect = [] :=
  c7_initial_selection_full_span envPlain argsPlain ("bos") 5 [6]
    (by decide) (by decide) (by decide)

theorem mainCore_filter_warn (env : Env) (args : Args) :
    ((mainCore env args).1).filter isWarn = warnTrace env args := by
  have hw : (warnTrace env args).filter isWarn = warnTrace env args := by
    unfold warnTrace
    cases teamToPlay args with
    | none => simp
    | some t => split <;> simp [isWarn]
  rcases Bool.eq_false_or_eq_true (truthy args.standings) with hst | hst
  · rw [mainCore_eq_standings env args hst]
    simp [List.filter_append, hw, isWarn]
  · cases ht : teamToPlay args with
    | none =>
        rw [mainCore_eq_no_team env args hst ht]
        simp [List.filter_append, hw, isWarn]
    | some t =>
        cases hl : env.retrieve args.date args.days false with
        | nil =>
            rw [mainCore_eq_empty env args t hst ht hl]
            simp [List.filter_append, hw, isWarn]
        | cons gd rest =>
            rcases Bool.eq_false_or_eq_true
                (args.wait &&
                  !(hasReachedTime env.now (env.getGameRec gd t args.game).mlbdate))
              with hcond | hcond
            · cases hlp : (pollLoop env.cancel
                  (env.getGameRec gd t args.game).mlbdate env.now 0).2 with
              | none =>
                  rw [mainCore_eq_cancelled env args t gd rest hst ht hl hcond hlp]
                  simp [List.filter_append, hw, isWarn,
                        pollLoop_filter_eq_nil env.cancel _ env.now 0 isWarn rfl rfl]
              | some p =>
                  rw [mainCore_eq_waited env args t gd rest p hst ht hl hcond hlp]
                  simp [List.filter_append, hw, isWarn,
                        pollLoop_filter_eq_nil env.cancel _ env.now 0 isWarn rfl rfl,
                        afterWait_filter_none env args t isWarn rfl (fun _ _ _ => rfl) rfl
                          (fun _ _ _ => rfl) (fun _ _ => rfl)]
            · rw [mainCore_eq_play env args t gd rest hst ht hl hcond]
              simp [List.filter_append, hw, isWarn]

theorem mainCore_retrieve_mem (env : Env) (args : Args) (t : String)
    (hst : truthy args.standings = false) (ht : teamToPlay args = some t) :
    Event.retrieveCall args.date args.days false ∈ (mainCore env args).1 := by
  cases hl : env.retrieve args.date args.days false with
  | nil =>
      rw [mainCore_eq_empty env args t hst ht hl]
      simp
  | cons gd rest =>
      rcases Bool.eq_false_or_eq_true
          (args.wait && !(hasReachedTime env.now (env.getGameRec gd t args.game).mlbdate))
        with hcond | hcond
      · cases hlp : (pollLoop env.cancel
            (env.getGameRec gd t args.game).mlbdate env.now 0).2 with
        | none =>
            rw [mainCore_eq_cancelled env args t gd rest hst ht hl hcond hlp]
            simp
        | some p =>
            rw [mainCore_eq_waited env args t gd rest p hst ht hl hcond hlp]
            simp
      · rw [mainCore_eq_play env args t gd rest hst ht hl hcond]
        simp

theorem mainCore_mem_team (env : Env) (args : Args) (t : String)
    (ht : teamToPlay args = some t) :
    ∀ e ∈ (mainCore env args).1, eventTeam e = none ∨ eventTeam e = some t := by
  have hwmem := warnTrace_mem_team env args t ht
  rcases Bool.eq_false_or_eq_true (truthy args.standings) with hst | hst
  · rw [mainCore_eq_standings env args hst]
    intro e he
    simp only [List.mem_append, List.mem_singleton] at he
    rcases he with he | rfl
    · rw [hwmem e he]
      simp [eventTeam]
    · simp [eventTeam]
  · cases hl : env.retrieve args.date args.days false with
    | nil =>
        rw [mainCore_eq_empty env args t hst ht hl]
        intro e he
        simp only [List.mem_append, List.mem_singleton] at he
        rcases he with he | rfl
        · rw [hwmem e he]
          simp [eventTeam]
        · simp [eventTeam]
    | cons gd rest =>
        rcases Bool.eq_false_or_eq_true
            (args.wait && !(hasReachedTime env.now (env.getGameRec gd t args.game).mlbdate))
          with hcond | hcond
        · cases hlp : (pollLoop env.cancel
              (env.getGameRec gd t args.game).mlbdate env.now 0).2 with
          | none =>
              rw [mainCore_eq_cancelled env args t gd rest hst ht hl hcond hlp]
              intro e he
              simp only [List.mem_append, List.mem_cons] at he
              rcases he with he | rfl | rfl | rfl | he
              · rw [hwmem e he]
                simp [eventTeam]
              · simp [eventTeam]
              · simp [eventTeam]
              · simp [eventTeam]
              · rcases pollLoop_mem_sleep_dot env.cancel _ env.now 0 e he with rfl | rfl <;>
                  simp [eventTeam]
          | some p =>
              rw [mainCore_eq_waited env args t gd rest p hst ht hl hcond hlp]
              intro e he
              simp only [List.mem_append, List.mem_cons] at he
              rcases he with he | rfl | rfl | rfl | he | he
              · rw [hwmem e he]
                simp [eventTeam]
              · simp [eventTeam]
              · simp [eventTeam]
              · simp [eventTeam]
              · rcases pollLoop_mem_sleep_dot env.cancel _ env.now 0 e he with rfl | rfl <;>
                  simp [eventTeam]
              · exact afterWait_mem_team env args t e he
        · rw [mainCore_eq_play env args t gd rest hst ht hl hcond]
          intro e he
          simp only [List.mem_append, List.mem_cons, List.not_mem_nil, or_false] at he
          rcases he with he | rfl | rfl | rfl
          · rw [hwmem e he]
            simp [eventTeam]
          · simp [eventTeam]
          · simp [eventTeam]
          · simp [eventTeam]

/-- C8: a provided (non-empty) team argument is normalized to lowercase; when
the lowered code is not among the known team codes exactly one warning naming
it is logged, and execution proceeds with the lowered code as a literal
identifier either way — the run is never rejected on this ground: outside the
standings short-circuit the initial catalog fetch still happens, and every
event that carries a team identifier carries exactly the lowered code. -/
theorem c8_team_code_normalization (env : Env) (args : Args) (s : String)
    (hs : args.team = some s) (hne : (s == "") = false) :
    teamToPlay args = some (strLower s) ∧
    ((mainCore env args).1).filter isWarn
      = (if env.teamCodes.contains (strLower s) then []
         else [Event.warn (strLower s)]) ∧
    (truthy args.standings = false →
      Event.retrieveCall args.date args.days false ∈ (mainCore env args).1) ∧
    (∀ e ∈ (mainCore env args).1,
      eventTeam e = none ∨ eventTeam e = some (strLower s)) := by
  have ht : teamToPlay args = some (strLower s) := by
    simp [teamToPlay, truthy, hs, hne]
  refine ⟨ht, ?_, ?_, ?_⟩
  · rw [mainCore_filter_warn env args, warnTrace_eq env args _ ht]
  · intro hst
    exact mainCore_retrieve_mem env args _ hst ht
  · exact mainCore_mem_team env args _ ht

/-- Witness for C8 at a concrete input with an unknown mixed-case team code:
the code is lowered, exactly one warning is logged, and the fetch happens. -/
theorem c8_witness :
    teamToPlay argsOdd = some (strLower ("XyZ")) ∧
    ((mainCore envPlain argsOdd).1).filter isWarn
      = (if envPlain.teamCodes.contains (strLower ("XyZ")) then []
         else [Event.warn (strLower ("XyZ"))]) ∧
    Event.retrieveCall argsOdd.date argsOdd.days false ∈ (mainCore envPlain argsOdd).1 := by
  have h := c8_team_code_normalization envPlain argsOdd ("XyZ") rfl (by decide)
  exact ⟨h.1, h.2.1, h.2.2.1 (by decide)⟩

end Mlbv
